import Mathlib

set_option maxRecDepth 100000
set_option maxHeartbeats 4000000

/-
Shallow embedding of the agent-voice repository.

Source files:
  packages/agent-voice-audio/src/lib.rs  (the audio bridging engine)
  packages/agent-voice-aec/src/lib.rs    (the standalone echo-canceller wrapper)

Conventions of the embedding:
  - `u32`/`u64`/`usize` values are `Nat`; `saturating_add` is modelled explicitly
    by `satAdd32`/`satAdd64`.  `i16` samples are `Int` (the source only ever
    moves them around and encodes/decodes them).
  - `VecDeque`/`Vec` are `List`, with the head of the list being the front of
    the deque; `push_back` is `++ [x]`, `pop_front` is `drop 1` / head match.
  - The external audio-processing module (the `sonora` crate, field `apm` of
    `EngineInner`) is opaque: its capture transform is a function field
    `apm : List Int → List Int`; its render call has no observable effect on
    engine state (the output buffer is discarded by the source), so only the
    delivery of the frame is recorded.
  - Rust `while` loops are modelled by fuel recursion; every call site passes
    fuel strictly larger than the number of iterations the loop can make
    (each iteration strictly decreases the fuel measure), so the model and
    the source agree on every state the source can reach.  The source loops
    diverge when `device_rate = 0` or `frame_size = 0`; both are unreachable
    (`set_device_rates` coerces rates with `.max(1)`, and `frame_size ≥ 80`
    because the sample rate is floored at 8000).
  - Fields prefixed `ghost_` do not exist in the source.  They are pure
    history observers (frames handed to the external processor, frames ever
    pushed to each queue, number of pipeline-sample advances).  No operation
    ever reads them, so they cannot influence any non-ghost field.
  - Fallible operations return `Option`; `none` is the error case, in which
    the source returns before mutating any engine state.
-/

namespace AgentVoice

/-- Saturating addition of `u32` values (`Nat`-encoded). -/
def satAdd32 (a b : Nat) : Nat := min (a + b) (2 ^ 32 - 1)

/-- Saturating addition of `u64` values (`Nat`-encoded). -/
def satAdd64 (a b : Nat) : Nat := min (a + b) (2 ^ 64 - 1)

/-- Constant `DEFAULT_SAMPLE_RATE` from lib.rs. -/
def DEFAULT_SAMPLE_RATE : Nat := 24000

/-- Constant `DEFAULT_STREAM_DELAY_MS` from lib.rs. -/
def DEFAULT_STREAM_DELAY_MS : Int := 30

/-- Constant `DEFAULT_MAX_CAPTURE_FRAMES` from lib.rs. -/
def DEFAULT_MAX_CAPTURE_FRAMES : Nat := 400

/-- `i16::from_le_bytes([lo, hi])`: decode two bytes, little-endian, as a
signed 16-bit value. -/
def i16_from_le_bytes (lo hi : Nat) : Int :=
  let u : Nat := lo % 256 + hi % 256 * 256
  if u < 32768 then (u : Int) else (u : Int) - 65536

/-- `i16::to_le_bytes`: encode a signed 16-bit value as two bytes,
little-endian. -/
def i16_to_le_bytes (s : Int) : List Nat :=
  let u : Nat := (s % 65536).toNat
  [u % 256, u / 256]

/-- `pcm16_to_bytes` (lib.rs lines 208-216): pack samples as 16-bit
little-endian PCM, two bytes per sample, in order. -/
def pcm16_to_bytes (samples : List Int) : List Nat :=
  (samples.map i16_to_le_bytes).flatten

/-- The decoding loop of `EngineInner::queue_playback_bytes` (lib.rs lines
77-82): `chunks_exact(2)` walks consecutive byte pairs (a trailing odd byte is
ignored) and decodes each pair as little-endian `i16`. -/
def decode_pcm16_le : List Nat → List Int
  | lo :: hi :: rest => i16_from_le_bytes lo hi :: decode_pcm16_le rest
  | _ => []

/-- The `Stats` struct (lib.rs lines 34-41); all counters are `u32` updated
with `saturating_add`. -/
structure Stats where
  capture_frames : Nat
  processed_frames : Nat
  playback_underruns : Nat
  dropped_raw_frames : Nat
  dropped_processed_frames : Nat

/-- The `EngineInner` struct (lib.rs lines 43-61), plus ghost history
observers (see the header comment).  `apm` stands for the opaque external
audio-processing module: only its capture transform is observable through
the engine (the render-side output is discarded by the source). -/
structure EngineInner where
  target_sample_rate : Nat
  frame_size : Nat
  enable_aec : Bool
  max_capture_frames : Nat
  apm : List Int → List Int
  playback_queue : List Int
  render_accum : List Int
  capture_accum : List Int
  raw_frames : List (List Nat)
  processed_frames : List (List Nat)
  playback_device_rate : Nat
  capture_device_rate : Nat
  playback_step_accum : Nat
  capture_step_accum : Nat
  last_playback_sample : Int
  stats : Stats
  ghost_render_delivered : List (List Int)
  ghost_capture_delivered : List (List Int)
  ghost_raw_pushed : List (List Nat)
  ghost_processed_pushed : List (List Nat)
  ghost_render_advanced : Nat
  ghost_capture_advanced : Nat

/-- `push_frame_with_cap` (lib.rs lines 195-206): if the queue already holds
at least `cap` frames, pop the front frame and saturating-increment the
dropped counter; then push the new frame at the back.  Returns the new queue
and the new counter value. -/
def push_frame_with_cap (queue : List (List Nat)) (frame : List Nat) (cap : Nat)
    (dropped_counter : Nat) : List (List Nat) × Nat :=
  if cap ≤ queue.length then (queue.drop 1 ++ [frame], satAdd32 dropped_counter 1)
  else (queue ++ [frame], dropped_counter)

/-- Folding `push_frame_with_cap` over a sequence of pushed frames. -/
def pushAll (cap : Nat) (s : List (List Nat) × Nat) (L : List (List Nat)) :
    List (List Nat) × Nat :=
  L.foldl (fun acc f => push_frame_with_cap acc.1 f cap acc.2) s

/-- The collection loop of `pop_frames` (lib.rs lines 184-193): pop the front
frame `n` times, collecting the popped frames in order (a pop of an empty
queue collects nothing). -/
def pop_frames_loop : Nat → List (List Nat) → List (List Nat) × List (List Nat)
  | 0, queue => ([], queue)
  | n + 1, queue =>
      match queue with
      | [] => pop_frames_loop n []
      | f :: rest =>
          let p := pop_frames_loop n rest
          (f :: p.1, p.2)

/-- `pop_frames` (lib.rs lines 184-193): remove and return up to `limit`
oldest frames (`take = limit.min(queue.len())`). -/
def pop_frames (queue : List (List Nat)) (limit : Nat) :
    List (List Nat) × List (List Nat) :=
  pop_frames_loop (min limit queue.length) queue

/-- `EngineInner::set_device_rates` (lib.rs lines 70-75): coerce both device
rates to at least 1 and seed both step accumulators to the coerced rates. -/
def set_device_rates (st : EngineInner) (playback_rate capture_rate : Nat) : EngineInner :=
  { st with playback_device_rate := max playback_rate 1,
            capture_device_rate := max capture_rate 1,
            playback_step_accum := max playback_rate 1,
            capture_step_accum := max capture_rate 1 }

/-- `EngineInner::queue_playback_bytes` (lib.rs lines 77-82): decode byte
pairs and push the samples at the back of the playback queue, in order. -/
def queue_playback_bytes (st : EngineInner) (pcm16 : List Nat) : EngineInner :=
  { st with playback_queue := st.playback_queue ++ decode_pcm16_le pcm16 }

/-- The `while` loop of `EngineInner::process_render_frames` (lib.rs lines
123-134), fuel recursion: while the render accumulator holds at least
`frame_size` samples, slice off the first `frame_size` of them, drain them,
and hand the frame to the external processor (whose output the source
discards; the delivery is recorded in `ghost_render_delivered`). -/
def process_render_frames_fuel : Nat → EngineInner → EngineInner
  | 0, st => st
  | fuel + 1, st =>
      if st.frame_size ≤ st.render_accum.length then
        process_render_frames_fuel fuel
          { st with render_accum := st.render_accum.drop st.frame_size,
                    ghost_render_delivered :=
                      st.ghost_render_delivered ++ [st.render_accum.take st.frame_size] }
      else st

/-- `EngineInner::process_render_frames` (lib.rs lines 123-134). -/
def process_render_frames (st : EngineInner) : EngineInner :=
  process_render_frames_fuel (st.render_accum.length + 1) st

/-- `EngineInner::consume_playback_source_sample` (lib.rs lines 84-95): pop
the oldest queued sample, or synthesize 0 and saturating-increment the
underrun counter if the queue is empty; cache the sample as the hold value,
append it to the render accumulator, process any completed render frames and
return the sample.  `ghost_render_advanced` counts these calls (one pipeline
sample is advanced per call). -/
def consume_playback_source_sample (st : EngineInner) : Int × EngineInner :=
  match st.playback_queue with
  | next :: rest =>
      let st1 := { st with playback_queue := rest,
                           last_playback_sample := next,
                           render_accum := st.render_accum ++ [next],
                           ghost_render_advanced := st.ghost_render_advanced + 1 }
      (next, process_render_frames st1)
  | [] =>
      let st1 := { st with stats := { st.stats with
                             playback_underruns := satAdd32 st.stats.playback_underruns 1 },
                           last_playback_sample := 0,
                           render_accum := st.render_accum ++ [0],
                           ghost_render_advanced := st.ghost_render_advanced + 1 }
      (0, process_render_frames st1)

/-- The `while` loop of `EngineInner::next_output_sample` (lib.rs lines
102-105), fuel recursion: while the render step accumulator is at least the
playback device rate, subtract the rate and consume one playback source
sample. -/
def renderLoopFuel : Nat → EngineInner → EngineInner
  | 0, st => st
  | fuel + 1, st =>
      if st.playback_device_rate ≤ st.playback_step_accum then
        renderLoopFuel fuel
          (consume_playback_source_sample
            { st with playback_step_accum :=
                        st.playback_step_accum - st.playback_device_rate }).2
      else st

/-- `EngineInner::next_output_sample` (lib.rs lines 97-108): saturating-add
the pipeline rate to the render step accumulator, run the conversion loop,
and emit the currently held playback sample. -/
def next_output_sample (st : EngineInner) : Int × EngineInner :=
  let st1 := { st with playback_step_accum :=
                         satAdd64 st.playback_step_accum st.target_sample_rate }
  let st2 := renderLoopFuel (st1.playback_step_accum + 1) st1
  (st2.last_playback_sample, st2)

/-- The body of the `while` loop of `EngineInner::process_capture_frames`
(lib.rs lines 141-171), applied to one completed frame: count it, encode it
and push it to the raw queue, compute the processed frame (through the
external processor when AEC is enabled, unchanged otherwise), count it, and
push its encoding to the processed queue.  The ghost lists record the
completed frame and both pushes. -/
def handle_capture_frame (st : EngineInner) (frame : List Int) : EngineInner :=
  let st1 := { st with stats := { st.stats with
                         capture_frames := satAdd32 st.stats.capture_frames 1 },
                       ghost_capture_delivered := st.ghost_capture_delivered ++ [frame] }
  let raw := pcm16_to_bytes frame
  let pr := push_frame_with_cap st1.raw_frames raw st1.max_capture_frames
              st1.stats.dropped_raw_frames
  let st2 := { st1 with raw_frames := pr.1,
                        stats := { st1.stats with dropped_raw_frames := pr.2 },
                        ghost_raw_pushed := st1.ghost_raw_pushed ++ [raw] }
  let processed := if st2.enable_aec then st2.apm frame else frame
  let st3 := { st2 with stats := { st2.stats with
                          processed_frames := satAdd32 st2.stats.processed_frames 1 } }
  let pb := pcm16_to_bytes processed
  let pp := push_frame_with_cap st3.processed_frames pb st3.max_capture_frames
              st3.stats.dropped_processed_frames
  { st3 with processed_frames := pp.1,
             stats := { st3.stats with dropped_processed_frames := pp.2 },
             ghost_processed_pushed := st3.ghost_processed_pushed ++ [pb] }

/-- The `while` loop of `EngineInner::process_capture_frames` (lib.rs lines
136-173), fuel recursion: while the capture accumulator holds at least
`frame_size` samples, slice off the first `frame_size`, drain them and handle
the completed frame. -/
def process_capture_frames_fuel : Nat → EngineInner → EngineInner
  | 0, st => st
  | fuel + 1, st =>
      if st.frame_size ≤ st.capture_accum.length then
        process_capture_frames_fuel fuel
          (handle_capture_frame
            { st with capture_accum := st.capture_accum.drop st.frame_size }
            (st.capture_accum.take st.frame_size))
      else st

/-- `EngineInner::process_capture_frames` (lib.rs lines 136-173). -/
def process_capture_frames (st : EngineInner) : EngineInner :=
  process_capture_frames_fuel (st.capture_accum.length + 1) st

/-- The `while` loop of `EngineInner::on_captured_device_sample` (lib.rs
lines 115-118), fuel recursion: while the capture step accumulator is at
least the capture device rate, subtract the rate and append the device sample
to the capture accumulator.  `ghost_capture_advanced` counts appended
pipeline samples. -/
def captureLoopFuel : Nat → EngineInner → Int → EngineInner
  | 0, st, _ => st
  | fuel + 1, st, sample =>
      if st.capture_device_rate ≤ st.capture_step_accum then
        captureLoopFuel fuel
          { st with capture_step_accum := st.capture_step_accum - st.capture_device_rate,
                    capture_accum := st.capture_accum ++ [sample],
                    ghost_capture_advanced := st.ghost_capture_advanced + 1 } sample
      else st

/-- `EngineInner::on_captured_device_sample` (lib.rs lines 110-121):
saturating-add the pipeline rate to the capture step accumulator, run the
conversion loop, then process any completed capture frames. -/
def on_captured_device_sample (st : EngineInner) (sample : Int) : EngineInner :=
  let st1 := { st with capture_step_accum :=
                         satAdd64 st.capture_step_accum st.target_sample_rate }
  process_capture_frames (captureLoopFuel (st1.capture_step_accum + 1) st1 sample)

/-- The `AudioEngineOptions` struct (lib.rs lines 15-22). -/
structure AudioEngineOptions where
  sample_rate : Option Nat
  channels : Option Nat
  enable_aec : Option Bool
  stream_delay_ms : Option Int
  max_capture_frames : Option Nat

/-- `AudioEngine::new` (lib.rs lines 245-291): resolve each option against
its default, floor the sample rate at 8000, derive `frame_size` as a 10 ms
block at the pipeline rate, and build the initial engine state.  Device rates
and step accumulators are seeded with the pipeline rate.  The only fallible
step in the source is `create_apm` (a call into the external processing
library); no option value is rejected.  `apmF` stands for the external
processor built there. -/
def AudioEngine.new (apmF : List Int → List Int) (options : Option AudioEngineOptions) :
    EngineInner :=
  let sample_rate := max ((options.bind fun o => o.sample_rate).getD DEFAULT_SAMPLE_RATE) 8000
  let enable_aec := (options.bind fun o => o.enable_aec).getD true
  let max_capture_frames :=
    (options.bind fun o => o.max_capture_frames).getD DEFAULT_MAX_CAPTURE_FRAMES
  let frame_size := sample_rate / 100
  { target_sample_rate := sample_rate
    frame_size := frame_size
    enable_aec := enable_aec
    max_capture_frames := max_capture_frames
    apm := apmF
    playback_queue := []
    render_accum := []
    capture_accum := []
    raw_frames := []
    processed_frames := []
    playback_device_rate := sample_rate
    capture_device_rate := sample_rate
    playback_step_accum := sample_rate
    capture_step_accum := sample_rate
    last_playback_sample := 0
    stats := ⟨0, 0, 0, 0, 0⟩
    ghost_render_delivered := []
    ghost_capture_delivered := []
    ghost_raw_pushed := []
    ghost_processed_pushed := []
    ghost_render_advanced := 0
    ghost_capture_advanced := 0 }

/-- `AudioEngine::play` (lib.rs lines 350-360): reject an odd byte length
before touching any engine state, otherwise decode and enqueue. -/
def AudioEngine.play (st : EngineInner) (pcm16 : List Nat) : Option EngineInner :=
  if pcm16.length % 2 ≠ 0 then none
  else some (queue_playback_bytes st pcm16)

/-- `m` consecutive render device slots (the loop of the output device
callback, lib.rs lines 492-500, single channel), discarding the emitted
samples. -/
def renderSteps : Nat → EngineInner → EngineInner
  | 0, st => st
  | n + 1, st => renderSteps n (next_output_sample st).2

/-- `n` consecutive render device slots, collecting the emitted device
samples in order. -/
def renderCollect : Nat → EngineInner → List Int × EngineInner
  | 0, st => ([], st)
  | n + 1, st =>
      let p := next_output_sample st
      let q := renderCollect n p.2
      (p.1 :: q.1, q.2)

/-- A capture device callback delivering the given device samples in order
(lib.rs lines 443-450, single channel). -/
def runCaptureList (samples : List Int) (st : EngineInner) : EngineInner :=
  samples.foldl on_captured_device_sample st

/-- `n` consecutive playback-source consumes, collecting the produced samples
in order. -/
def consumeCollect : Nat → EngineInner → List Int × EngineInner
  | 0, st => ([], st)
  | n + 1, st =>
      let p := consume_playback_source_sample st
      let q := consumeCollect n p.2
      (p.1 :: q.1, q.2)

/-- The data-plane operations a caller or a device callback can perform on
the shared engine state. -/
inductive EngineOp where
  | play (bytes : List Nat)
  | renderSlot
  | captureSample (s : Int)
  | readProcessed (limit : Nat)
  | readRaw (limit : Nat)
  | setRates (p c : Nat)

/-- Effect of one operation on the engine state.  A rejected `play` (odd byte
length) leaves the state untouched, as the source returns before locking. -/
def applyOp (st : EngineInner) (op : EngineOp) : EngineInner :=
  match op with
  | .play bytes =>
      match AudioEngine.play st bytes with
      | some st2 => st2
      | none => st
  | .renderSlot => (next_output_sample st).2
  | .captureSample s => on_captured_device_sample st s
  | .readProcessed n => { st with processed_frames := (pop_frames st.processed_frames n).2 }
  | .readRaw n => { st with raw_frames := (pop_frames st.raw_frames n).2 }
  | .setRates p c => set_device_rates st p c

/-- Run a sequence of operations from a starting state. -/
def run (st : EngineInner) (ops : List EngineOp) : EngineInner :=
  ops.foldl applyOp st

/-- The identity external processor, used for concrete evaluations. -/
def idProc : List Int → List Int := fun f => f

/-- The `EchoCanceller` wrapper state (agent-voice-aec lib.rs lines 10-14);
the raw SpeexDSP state pointer is external and carries no observable data
for the wrapper's validation behaviour. -/
structure EchoCanceller where
  frame_size : Nat

/-- `EchoCanceller::new` (agent-voice-aec lib.rs lines 21-48): reject any
non-positive `frame_size`, `filter_length` or `sample_rate` (all `i32`)
before any library call; `initOk` models whether the external
`speex_echo_state_init` call returns a usable state (its failure is the only
other error path). -/
def EchoCanceller.new (initOk : Bool) (frame_size filter_length sample_rate : Int) :
    Option EchoCanceller :=
  if frame_size ≤ 0 ∨ filter_length ≤ 0 ∨ sample_rate ≤ 0 then none
  else if initOk then some ⟨frame_size.toNat⟩ else none

/-- `EchoCanceller::playback` (agent-voice-aec lib.rs lines 53-67): reject a
buffer whose byte length is not exactly `frame_size * 2` before the library
call (which mutates only the external state). -/
def EchoCanceller.playback (ec : EchoCanceller) (frame : List Nat) : Option Unit :=
  if frame.length ≠ ec.frame_size * 2 then none else some ()

/-- `EchoCanceller::capture` (agent-voice-aec lib.rs lines 72-94): reject a
buffer whose byte length is not exactly `frame_size * 2` before the library
call; otherwise return the byte encoding of the output frame the external
library writes (modelled by `speexF`). -/
def EchoCanceller.capture (speexF : List Nat → List Int) (ec : EchoCanceller)
    (frame : List Nat) : Option (List Nat) :=
  if frame.length ≠ ec.frame_size * 2 then none
  else some (pcm16_to_bytes (speexF frame))

/-- The 1:1 capture correspondence invariant: the frames ever pushed to the
raw queue are exactly the encodings of the completed capture frames, in
order, and the frames ever pushed to the processed queue are exactly the
encodings of those same frames after the AEC step (the external processor
when AEC is enabled, the identity otherwise), in the same order. -/
def CaptureSync (st : EngineInner) : Prop :=
  st.ghost_raw_pushed = st.ghost_capture_delivered.map pcm16_to_bytes ∧
  st.ghost_processed_pushed = st.ghost_capture_delivered.map
    (fun f => pcm16_to_bytes (if st.enable_aec then st.apm f else f))

/-- Default-configured engine with the identity external processor, used in
witnesses. -/
def engineDefault : EngineInner := AudioEngine.new idProc none

/-- Engine configured at a 16000 Hz pipeline rate (frame size 160), AEC off,
with the identity external processor: the configuration of the spec's worked
example.  Device rates are the construction seeds (16000, matching the
example's 1:1 assumption). -/
def engine16k : EngineInner :=
  AudioEngine.new idProc (some ⟨some 16000, none, some false, none, none⟩)

/-- Worked example, first scenario: 320 bytes (160 samples of value 100)
submitted via `play`. -/
def scenario1_engine : EngineInner :=
  (AudioEngine.play engine16k (pcm16_to_bytes (List.replicate 160 100))).getD engine16k

/-- Worked example, second scenario: 160 bytes (80 samples, values 1..80)
submitted via `play`. -/
def scenario2_engine : EngineInner :=
  (AudioEngine.play engine16k
    (pcm16_to_bytes ((List.range 80).map fun i => ((i : Int) + 1)))).getD engine16k

/-- A reachable engine state whose underrun counter has saturated (it is
reached from `engineDefault` by `2 ^ 32 - 1` consumes of the empty playback
buffer). -/
def saturatedUnderrunState : EngineInner :=
  { engineDefault with stats := ⟨0, 0, 2 ^ 32 - 1, 0, 0⟩ }

/-- An engine state (frame size 240) whose accumulators hold bursts larger
than one frame, used to witness the frame-integrity theorem. -/
def frameTestState : EngineInner :=
  { engineDefault with render_accum := List.replicate 250 3,
                       capture_accum := List.replicate 481 4 }

theorem satAdd32_eq (a b : Nat) (h : a + b ≤ 2 ^ 32 - 1) : satAdd32 a b = a + b := by
  simp only [satAdd32]
  omega

theorem satAdd64_eq (a b : Nat) (h : a + b ≤ 2 ^ 64 - 1) : satAdd64 a b = a + b := by
  simp only [satAdd64]
  omega

theorem process_render_frames_fuel_shape (fuel : Nat) (st : EngineInner) :
    ∃ ra g, process_render_frames_fuel fuel st =
      { st with render_accum := ra, ghost_render_delivered := g } := by
  induction fuel generalizing st with
  | zero => exact ⟨st.render_accum, st.ghost_render_delivered, rfl⟩
  | succ n ih =>
      by_cases h : st.frame_size ≤ st.render_accum.length
      · simp only [process_render_frames_fuel, if_pos h]
        obtain ⟨ra, g, hh⟩ := ih
          { st with render_accum := st.render_accum.drop st.frame_size,
                    ghost_render_delivered :=
                      st.ghost_render_delivered ++ [st.render_accum.take st.frame_size] }
        exact ⟨ra, g, hh⟩
      · simp only [process_render_frames_fuel, if_neg h]
        exact ⟨st.render_accum, st.ghost_render_delivered, rfl⟩

theorem process_render_frames_fuel_stream (fuel : Nat) (st : EngineInner) :
    ((process_render_frames_fuel fuel st).ghost_render_delivered).flatten ++
        (process_render_frames_fuel fuel st).render_accum =
      st.ghost_render_delivered.flatten ++ st.render_accum := by
  induction fuel generalizing st with
  | zero => rfl
  | succ n ih =>
      by_cases h : st.frame_size ≤ st.render_accum.length
      · simp only [process_render_frames_fuel, if_pos h]
        rw [ih]
        simp [List.append_assoc, List.take_append_drop]
      · simp only [process_render_frames_fuel, if_neg h]

theorem process_render_frames_fuel_delta (fuel : Nat) (st : EngineInner)
    (hfs : 1 ≤ st.frame_size) (hfuel : st.render_accum.length < fuel) :
    ∃ delta,
      (process_render_frames_fuel fuel st).ghost_render_delivered =
          st.ghost_render_delivered ++ delta ∧
      (∀ f ∈ delta, f.length = st.frame_size) ∧
      delta.flatten ++ (process_render_frames_fuel fuel st).render_accum = st.render_accum ∧
      (process_render_frames_fuel fuel st).render_accum.length < st.frame_size := by
  induction fuel generalizing st with
  | zero => omega
  | succ n ih =>
      by_cases h : st.frame_size ≤ st.render_accum.length
      · simp only [process_render_frames_fuel, if_pos h]
        obtain ⟨delta, h1, h2, h3, h4⟩ := ih
          { st with render_accum := st.render_accum.drop st.frame_size,
                    ghost_render_delivered :=
                      st.ghost_render_delivered ++ [st.render_accum.take st.frame_size] }
          hfs (by simp only [List.length_drop]; omega)
        refine ⟨st.render_accum.take st.frame_size :: delta, ?_, ?_, ?_, h4⟩
        · rw [h1]
          simp
        · intro f hf
          rcases List.mem_cons.1 hf with hf | hf
          · subst hf
            exact List.length_take_of_le h
          · exact h2 f hf
        · simp only [List.flatten_cons, List.append_assoc]
          rw [h3]
          exact List.take_append_drop _ _
      · simp only [process_render_frames_fuel, if_neg h]
        exact ⟨[], by simp, by simp, by simp, by omega⟩

theorem consume_fields (st : EngineInner) :
    (consume_playback_source_sample st).2.playback_step_accum = st.playback_step_accum ∧
    (consume_playback_source_sample st).2.playback_device_rate = st.playback_device_rate ∧
    (consume_playback_source_sample st).2.target_sample_rate = st.target_sample_rate ∧
    (consume_playback_source_sample st).2.ghost_render_advanced
        = st.ghost_render_advanced + 1 ∧
    (consume_playback_source_sample st).2.capture_step_accum = st.capture_step_accum ∧
    (consume_playback_source_sample st).2.capture_device_rate = st.capture_device_rate ∧
    (consume_playback_source_sample st).2.ghost_capture_advanced
        = st.ghost_capture_advanced ∧
    (consume_playback_source_sample st).2.ghost_capture_delivered
        = st.ghost_capture_delivered ∧
    (consume_playback_source_sample st).2.ghost_raw_pushed = st.ghost_raw_pushed ∧
    (consume_playback_source_sample st).2.ghost_processed_pushed
        = st.ghost_processed_pushed ∧
    (consume_playback_source_sample st).2.enable_aec = st.enable_aec ∧
    (consume_playback_source_sample st).2.apm = st.apm ∧
    (consume_playback_source_sample st).2.frame_size = st.frame_size ∧
    (consume_playback_source_sample st).2.capture_accum = st.capture_accum ∧
    (consume_playback_source_sample st).2.max_capture_frames = st.max_capture_frames ∧
    (consume_playback_source_sample st).2.raw_frames = st.raw_frames ∧
    (consume_playback_source_sample st).2.processed_frames = st.processed_frames := by
  cases hq : st.playback_queue with
  | nil =>
      simp only [consume_playback_source_sample, hq, process_render_frames]
      obtain ⟨ra, g, h⟩ := process_render_frames_fuel_shape _ _
      rw [h]
      exact ⟨rfl, rfl, rfl, rfl, rfl, rfl, rfl, rfl, rfl, rfl, rfl, rfl, rfl, rfl, rfl,
        rfl, rfl⟩
  | cons x xs =>
      simp only [consume_playback_source_sample, hq, process_render_frames]
      obtain ⟨ra, g, h⟩ := process_render_frames_fuel_shape _ _
      rw [h]
      exact ⟨rfl, rfl, rfl, rfl, rfl, rfl, rfl, rfl, rfl, rfl, rfl, rfl, rfl, rfl, rfl,
        rfl, rfl⟩

theorem consume_shape (st : EngineInner) :
    ∃ q stt l ra g, (consume_playback_source_sample st).2 =
      { st with playback_queue := q, stats := stt, last_playback_sample := l,
                render_accum := ra, ghost_render_delivered := g,
                ghost_render_advanced := st.ghost_render_advanced + 1 } := by
  cases hq : st.playback_queue with
  | nil =>
      simp only [consume_playback_source_sample, hq, process_render_frames]
      obtain ⟨ra, g, h⟩ := process_render_frames_fuel_shape _ _
      exact ⟨_, _, _, ra, g, h⟩
  | cons x xs =>
      simp only [consume_playback_source_sample, hq, process_render_frames]
      obtain ⟨ra, g, h⟩ := process_render_frames_fuel_shape _ _
      exact ⟨_, _, _, ra, g, h⟩

theorem renderLoopFuel_shape (fuel : Nat) (st : EngineInner) :
    ∃ acc q stt l ra adv g, renderLoopFuel fuel st =
      { st with playback_step_accum := acc, playback_queue := q, stats := stt,
                last_playback_sample := l, render_accum := ra,
                ghost_render_advanced := adv, ghost_render_delivered := g } := by
  induction fuel generalizing st with
  | zero =>
      exact ⟨st.playback_step_accum, st.playback_queue, st.stats, st.last_playback_sample,
        st.render_accum, st.ghost_render_advanced, st.ghost_render_delivered, rfl⟩
  | succ n ih =>
      by_cases h : st.playback_device_rate ≤ st.playback_step_accum
      · simp only [renderLoopFuel, if_pos h]
        obtain ⟨q, stt, l, ra, g, hc⟩ := consume_shape
          { st with playback_step_accum :=
              st.playback_step_accum - st.playback_device_rate }
        rw [hc]
        obtain ⟨acc2, q2, stt2, l2, ra2, adv2, g2, hh⟩ := ih _
        exact ⟨acc2, q2, stt2, l2, ra2, adv2, g2, hh⟩
      · simp only [renderLoopFuel, if_neg h]
        exact ⟨st.playback_step_accum, st.playback_queue, st.stats, st.last_playback_sample,
          st.render_accum, st.ghost_render_advanced, st.ghost_render_delivered, rfl⟩

theorem renderLoopFuel_conserve (fuel : Nat) (st : EngineInner)
    (hD : 1 ≤ st.playback_device_rate) (hfuel : st.playback_step_accum < fuel) :
    (renderLoopFuel fuel st).playback_step_accum < st.playback_device_rate ∧
    (renderLoopFuel fuel st).playback_step_accum
        + (renderLoopFuel fuel st).ghost_render_advanced * st.playback_device_rate
      = st.playback_step_accum + st.ghost_render_advanced * st.playback_device_rate ∧
    st.ghost_render_advanced ≤ (renderLoopFuel fuel st).ghost_render_advanced := by
  induction fuel generalizing st with
  | zero => omega
  | succ n ih =>
      by_cases h : st.playback_device_rate ≤ st.playback_step_accum
      · simp only [renderLoopFuel, if_pos h]
        obtain ⟨f1, f2, f3, f4, -⟩ := consume_fields
          { st with playback_step_accum :=
              st.playback_step_accum - st.playback_device_rate }
        have hD2 : 1 ≤ (consume_playback_source_sample
            { st with playback_step_accum :=
                st.playback_step_accum - st.playback_device_rate }).2.playback_device_rate := by
          rw [f2]; exact hD
        have hfu : (consume_playback_source_sample
            { st with playback_step_accum :=
                st.playback_step_accum - st.playback_device_rate }).2.playback_step_accum
              < n := by
          rw [f1]
          show st.playback_step_accum - st.playback_device_rate < n
          omega
        obtain ⟨i1, i2, i3⟩ := ih _ hD2 hfu
        rw [f2] at i1 i2
        rw [f1, f4] at i2
        rw [f4] at i3
        have i1' : (renderLoopFuel n (consume_playback_source_sample
            { st with playback_step_accum :=
                st.playback_step_accum - st.playback_device_rate }).2).playback_step_accum
              < st.playback_device_rate := i1
        have i2' : (renderLoopFuel n (consume_playback_source_sample
            { st with playback_step_accum :=
                st.playback_step_accum - st.playback_device_rate }).2).playback_step_accum
              + (renderLoopFuel n (consume_playback_source_sample
                  { st with playback_step_accum :=
                      st.playback_step_accum - st.playback_device_rate }).2).ghost_render_advanced
                * st.playback_device_rate
            = (st.playback_step_accum - st.playback_device_rate)
              + (st.ghost_render_advanced + 1) * st.playback_device_rate := i2
        have i3' : st.ghost_render_advanced + 1
            ≤ (renderLoopFuel n (consume_playback_source_sample
                { st with playback_step_accum :=
                    st.playback_step_accum - st.playback_device_rate }).2).ghost_render_advanced :=
          i3
        rw [Nat.succ_mul] at i2'
        exact ⟨i1', by omega, by omega⟩
      · have hgoal : renderLoopFuel (n + 1) st = st := by
          simp only [renderLoopFuel, if_neg h]
        rw [hgoal]
        exact ⟨by omega, rfl, Nat.le_refl _⟩

theorem next_output_fields (st : EngineInner) :
    (next_output_sample st).2.playback_device_rate = st.playback_device_rate ∧
    (next_output_sample st).2.target_sample_rate = st.target_sample_rate ∧
    (next_output_sample st).2.capture_step_accum = st.capture_step_accum ∧
    (next_output_sample st).2.capture_device_rate = st.capture_device_rate ∧
    (next_output_sample st).2.ghost_capture_advanced = st.ghost_capture_advanced ∧
    (next_output_sample st).2.ghost_capture_delivered = st.ghost_capture_delivered ∧
    (next_output_sample st).2.ghost_raw_pushed = st.ghost_raw_pushed ∧
    (next_output_sample st).2.ghost_processed_pushed = st.ghost_processed_pushed ∧
    (next_output_sample st).2.enable_aec = st.enable_aec ∧
    (next_output_sample st).2.apm = st.apm ∧
    (next_output_sample st).2.frame_size = st.frame_size ∧
    (next_output_sample st).2.capture_accum = st.capture_accum ∧
    (next_output_sample st).2.max_capture_frames = st.max_capture_frames := by
  have hun : (next_output_sample st).2 =
      renderLoopFuel
        (satAdd64 st.playback_step_accum st.target_sample_rate + 1)
        { st with playback_step_accum :=
            satAdd64 st.playback_step_accum st.target_sample_rate } := rfl
  rw [hun]
  obtain ⟨acc, q, stt, l, ra, adv, g, hh⟩ := renderLoopFuel_shape _ _
  rw [hh]
  exact ⟨rfl, rfl, rfl, rfl, rfl, rfl, rfl, rfl, rfl, rfl, rfl, rfl, rfl⟩

theorem next_output_spec (st : EngineInner)
    (hD : 1 ≤ st.playback_device_rate) (hD32 : st.playback_device_rate < 2 ^ 32)
    (hP32 : st.target_sample_rate < 2 ^ 32)
    (hacc : st.playback_step_accum ≤ st.playback_device_rate) :
    (next_output_sample st).2.playback_step_accum < st.playback_device_rate ∧
    (next_output_sample st).2.playback_step_accum
        + (next_output_sample st).2.ghost_render_advanced * st.playback_device_rate
      = st.playback_step_accum + st.target_sample_rate
        + st.ghost_render_advanced * st.playback_device_rate ∧
    st.ghost_render_advanced ≤ (next_output_sample st).2.ghost_render_advanced := by
  have h32 : (2 : Nat) ^ 32 = 4294967296 := by norm_num
  have h64 : (2 : Nat) ^ 64 - 1 = 18446744073709551615 := by norm_num
  have hsat : satAdd64 st.playback_step_accum st.target_sample_rate
      = st.playback_step_accum + st.target_sample_rate := by
    apply satAdd64_eq
    omega
  have hun : (next_output_sample st).2 =
      renderLoopFuel
        (satAdd64 st.playback_step_accum st.target_sample_rate + 1)
        { st with playback_step_accum :=
            satAdd64 st.playback_step_accum st.target_sample_rate } := rfl
  rw [hun, hsat]
  obtain ⟨c1, c2, c3⟩ := renderLoopFuel_conserve
    (st.playback_step_accum + st.target_sample_rate + 1)
    { st with playback_step_accum := st.playback_step_accum + st.target_sample_rate }
    hD (Nat.lt_succ_self _)
  have c1' : (renderLoopFuel (st.playback_step_accum + st.target_sample_rate + 1)
      { st with playback_step_accum :=
          st.playback_step_accum + st.target_sample_rate }).playback_step_accum
        < st.playback_device_rate := c1
  have c2' : (renderLoopFuel (st.playback_step_accum + st.target_sample_rate + 1)
      { st with playback_step_accum :=
          st.playback_step_accum + st.target_sample_rate }).playback_step_accum
        + (renderLoopFuel (st.playback_step_accum + st.target_sample_rate + 1)
            { st with playback_step_accum :=
                st.playback_step_accum + st.target_sample_rate }).ghost_render_advanced
          * st.playback_device_rate
      = st.playback_step_accum + st.target_sample_rate
        + st.ghost_render_advanced * st.playback_device_rate := c2
  have c3' : st.ghost_render_advanced
      ≤ (renderLoopFuel (st.playback_step_accum + st.target_sample_rate + 1)
          { st with playback_step_accum :=
              st.playback_step_accum + st.target_sample_rate }).ghost_render_advanced := c3
  exact ⟨c1', c2', c3'⟩

theorem renderSteps_spec (m : Nat) (st : EngineInner)
    (hD : 1 ≤ st.playback_device_rate) (hD32 : st.playback_device_rate < 2 ^ 32)
    (hP32 : st.target_sample_rate < 2 ^ 32)
    (hacc : st.playback_step_accum ≤ st.playback_device_rate) :
    (renderSteps m st).playback_step_accum ≤ st.playback_device_rate ∧
    (renderSteps m st).playback_step_accum
        + (renderSteps m st).ghost_render_advanced * st.playback_device_rate
      = st.playback_step_accum + m * st.target_sample_rate
        + st.ghost_render_advanced * st.playback_device_rate ∧
    st.ghost_render_advanced ≤ (renderSteps m st).ghost_render_advanced := by
  induction m generalizing st with
  | zero =>
      refine ⟨hacc, ?_, Nat.le_refl _⟩
      simp [renderSteps]
  | succ n ih =>
      obtain ⟨r1, r2, -⟩ := next_output_fields st
      obtain ⟨n1, n2, n3⟩ := next_output_spec st hD hD32 hP32 hacc
      obtain ⟨i1, i2, i3⟩ := ih (next_output_sample st).2
        (by rw [r1]; exact hD) (by rw [r1]; exact hD32) (by rw [r2]; exact hP32)
        (by rw [r1]; exact Nat.le_of_lt n1)
      rw [r1] at i1 i2
      rw [r2] at i2
      simp only [renderSteps]
      refine ⟨i1, ?_, Nat.le_trans n3 i3⟩
      rw [Nat.succ_mul]
      omega

theorem handle_capture_frame_shape (st : EngineInner) (frame : List Int) :
    ∃ rq pq stt, handle_capture_frame st frame =
      { st with raw_frames := rq, processed_frames := pq, stats := stt,
                ghost_capture_delivered := st.ghost_capture_delivered ++ [frame],
                ghost_raw_pushed := st.ghost_raw_pushed ++ [pcm16_to_bytes frame],
                ghost_processed_pushed := st.ghost_processed_pushed
                  ++ [pcm16_to_bytes (if st.enable_aec then st.apm frame else frame)] } :=
  ⟨_, _, _, rfl⟩

theorem process_capture_frames_fuel_shape (fuel : Nat) (st : EngineInner) :
    ∃ ca rq pq stt gd gr gp, process_capture_frames_fuel fuel st =
      { st with capture_accum := ca, raw_frames := rq, processed_frames := pq,
                stats := stt, ghost_capture_delivered := gd,
                ghost_raw_pushed := gr, ghost_processed_pushed := gp } := by
  induction fuel generalizing st with
  | zero =>
      exact ⟨st.capture_accum, st.raw_frames, st.processed_frames, st.stats,
        st.ghost_capture_delivered, st.ghost_raw_pushed, st.ghost_processed_pushed, rfl⟩
  | succ n ih =>
      by_cases h : st.frame_size ≤ st.capture_accum.length
      · simp only [process_capture_frames_fuel, if_pos h]
        obtain ⟨rq, pq, stt, hh⟩ := handle_capture_frame_shape
          { st with capture_accum := st.capture_accum.drop st.frame_size }
          (st.capture_accum.take st.frame_size)
        rw [hh]
        obtain ⟨ca2, rq2, pq2, stt2, gd2, gr2, gp2, h2⟩ := ih _
        exact ⟨ca2, rq2, pq2, stt2, gd2, gr2, gp2, h2⟩
      · simp only [process_capture_frames_fuel, if_neg h]
        exact ⟨st.capture_accum, st.raw_frames, st.processed_frames, st.stats,
          st.ghost_capture_delivered, st.ghost_raw_pushed, st.ghost_processed_pushed, rfl⟩

theorem captureLoopFuel_shape (fuel : Nat) (st : EngineInner) (sample : Int) :
    ∃ acc ca adv, captureLoopFuel fuel st sample =
      { st with capture_step_accum := acc, capture_accum := ca,
                ghost_capture_advanced := adv } := by
  induction fuel generalizing st with
  | zero => exact ⟨st.capture_step_accum, st.capture_accum, st.ghost_capture_advanced, rfl⟩
  | succ n ih =>
      by_cases h : st.capture_device_rate ≤ st.capture_step_accum
      · simp only [captureLoopFuel, if_pos h]
        obtain ⟨acc2, ca2, adv2, h2⟩ := ih _
        exact ⟨acc2, ca2, adv2, h2⟩
      · simp only [captureLoopFuel, if_neg h]
        exact ⟨st.capture_step_accum, st.capture_accum, st.ghost_capture_advanced, rfl⟩

theorem captureLoopFuel_conserve (fuel : Nat) (st : EngineInner) (sample : Int)
    (hD : 1 ≤ st.capture_device_rate) (hfuel : st.capture_step_accum < fuel) :
    (captureLoopFuel fuel st sample).capture_step_accum < st.capture_device_rate ∧
    (captureLoopFuel fuel st sample).capture_step_accum
        + (captureLoopFuel fuel st sample).ghost_capture_advanced * st.capture_device_rate
      = st.capture_step_accum + st.ghost_capture_advanced * st.capture_device_rate ∧
    st.ghost_capture_advanced ≤ (captureLoopFuel fuel st sample).ghost_capture_advanced := by
  induction fuel generalizing st with
  | zero => omega
  | succ n ih =>
      by_cases h : st.capture_device_rate ≤ st.capture_step_accum
      · simp only [captureLoopFuel, if_pos h]
        obtain ⟨i1, i2, i3⟩ := ih
          { st with capture_step_accum := st.capture_step_accum - st.capture_device_rate,
                    capture_accum := st.capture_accum ++ [sample],
                    ghost_capture_advanced := st.ghost_capture_advanced + 1 }
          hD (by show st.capture_step_accum - st.capture_device_rate < n; omega)
        have i1' : (captureLoopFuel n
            { st with capture_step_accum := st.capture_step_accum - st.capture_device_rate,
                      capture_accum := st.capture_accum ++ [sample],
                      ghost_capture_advanced := st.ghost_capture_advanced + 1 }
            sample).capture_step_accum < st.capture_device_rate := i1
        have i2' : (captureLoopFuel n
            { st with capture_step_accum := st.capture_step_accum - st.capture_device_rate,
                      capture_accum := st.capture_accum ++ [sample],
                      ghost_capture_advanced := st.ghost_capture_advanced + 1 }
            sample).capture_step_accum
              + (captureLoopFuel n
                  { st with capture_step_accum :=
                              st.capture_step_accum - st.capture_device_rate,
                            capture_accum := st.capture_accum ++ [sample],
                            ghost_capture_advanced := st.ghost_capture_advanced + 1 }
                  sample).ghost_capture_advanced * st.capture_device_rate
            = (st.capture_step_accum - st.capture_device_rate)
              + (st.ghost_capture_advanced + 1) * st.capture_device_rate := i2
        have i3' : st.ghost_capture_advanced + 1
            ≤ (captureLoopFuel n
                { st with capture_step_accum :=
                            st.capture_step_accum - st.capture_device_rate,
                          capture_accum := st.capture_accum ++ [sample],
                          ghost_capture_advanced := st.ghost_capture_advanced + 1 }
                sample).ghost_capture_advanced := i3
        rw [Nat.succ_mul] at i2'
        exact ⟨i1', by omega, by omega⟩
      · have hgoal : captureLoopFuel (n + 1) st sample = st := by
          simp only [captureLoopFuel, if_neg h]
        rw [hgoal]
        exact ⟨by omega, rfl, Nat.le_refl _⟩

theorem on_captured_fields (st : EngineInner) (sample : Int) :
    (on_captured_device_sample st sample).capture_device_rate = st.capture_device_rate ∧
    (on_captured_device_sample st sample).target_sample_rate = st.target_sample_rate ∧
    (on_captured_device_sample st sample).playback_device_rate = st.playback_device_rate ∧
    (on_captured_device_sample st sample).playback_step_accum = st.playback_step_accum ∧
    (on_captured_device_sample st sample).playback_queue = st.playback_queue ∧
    (on_captured_device_sample st sample).last_playback_sample = st.last_playback_sample ∧
    (on_captured_device_sample st sample).enable_aec = st.enable_aec ∧
    (on_captured_device_sample st sample).apm = st.apm ∧
    (on_captured_device_sample st sample).frame_size = st.frame_size ∧
    (on_captured_device_sample st sample).max_capture_frames = st.max_capture_frames ∧
    (on_captured_device_sample st sample).ghost_render_advanced = st.ghost_render_advanced ∧
    (on_captured_device_sample st sample).ghost_render_delivered
        = st.ghost_render_delivered ∧
    (on_captured_device_sample st sample).render_accum = st.render_accum := by
  have hun : on_captured_device_sample st sample =
      process_capture_frames
        (captureLoopFuel (satAdd64 st.capture_step_accum st.target_sample_rate + 1)
          { st with capture_step_accum :=
              satAdd64 st.capture_step_accum st.target_sample_rate } sample) := rfl
  rw [hun]
  simp only [process_capture_frames]
  obtain ⟨ca, rq, pq, stt, gd, gr, gp, hh⟩ := process_capture_frames_fuel_shape _ _
  rw [hh]
  obtain ⟨acc, ca2, adv, hcl⟩ := captureLoopFuel_shape _ _ _
  rw [hcl]
  exact ⟨rfl, rfl, rfl, rfl, rfl, rfl, rfl, rfl, rfl, rfl, rfl, rfl, rfl⟩

theorem on_captured_spec (st : EngineInner) (sample : Int)
    (hD : 1 ≤ st.capture_device_rate) (hD32 : st.capture_device_rate < 2 ^ 32)
    (hP32 : st.target_sample_rate < 2 ^ 32)
    (hacc : st.capture_step_accum ≤ st.capture_device_rate) :
    (on_captured_device_sample st sample).capture_step_accum < st.capture_device_rate ∧
    (on_captured_device_sample st sample).capture_step_accum
        + (on_captured_device_sample st sample).ghost_capture_advanced
          * st.capture_device_rate
      = st.capture_step_accum + st.target_sample_rate
        + st.ghost_capture_advanced * st.capture_device_rate ∧
    st.ghost_capture_advanced
        ≤ (on_captured_device_sample st sample).ghost_capture_advanced := by
  have h32 : (2 : Nat) ^ 32 = 4294967296 := by norm_num
  have h64 : (2 : Nat) ^ 64 - 1 = 18446744073709551615 := by norm_num
  have hsat : satAdd64 st.capture_step_accum st.target_sample_rate
      = st.capture_step_accum + st.target_sample_rate := by
    apply satAdd64_eq
    omega
  have hun : on_captured_device_sample st sample =
      process_capture_frames
        (captureLoopFuel (satAdd64 st.capture_step_accum st.target_sample_rate + 1)
          { st with capture_step_accum :=
              satAdd64 st.capture_step_accum st.target_sample_rate } sample) := rfl
  rw [hun, hsat]
  simp only [process_capture_frames]
  obtain ⟨ca, rq, pq, stt, gd, gr, gp, hh⟩ := process_capture_frames_fuel_shape _ _
  rw [hh]
  obtain ⟨c1, c2, c3⟩ := captureLoopFuel_conserve
    (st.capture_step_accum + st.target_sample_rate + 1)
    { st with capture_step_accum := st.capture_step_accum + st.target_sample_rate }
    sample hD (Nat.lt_succ_self _)
  exact ⟨c1, c2, c3⟩

theorem runCaptureList_spec (samples : List Int) (st : EngineInner)
    (hD : 1 ≤ st.capture_device_rate) (hD32 : st.capture_device_rate < 2 ^ 32)
    (hP32 : st.target_sample_rate < 2 ^ 32)
    (hacc : st.capture_step_accum ≤ st.capture_device_rate) :
    (runCaptureList samples st).capture_step_accum ≤ st.capture_device_rate ∧
    (runCaptureList samples st).capture_step_accum
        + (runCaptureList samples st).ghost_capture_advanced * st.capture_device_rate
      = st.capture_step_accum + samples.length * st.target_sample_rate
        + st.ghost_capture_advanced * st.capture_device_rate ∧
    st.ghost_capture_advanced ≤ (runCaptureList samples st).ghost_capture_advanced := by
  induction samples generalizing st with
  | nil =>
      refine ⟨hacc, ?_, Nat.le_refl _⟩
      simp [runCaptureList]
  | cons s rest ih =>
      obtain ⟨r1, r2, -⟩ := on_captured_fields st s
      obtain ⟨n1, n2, n3⟩ := on_captured_spec st s hD hD32 hP32 hacc
      obtain ⟨i1, i2, i3⟩ := ih (on_captured_device_sample st s)
        (by rw [r1]; exact hD) (by rw [r1]; exact hD32) (by rw [r2]; exact hP32)
        (by rw [r1]; exact Nat.le_of_lt n1)
      rw [r1] at i1 i2
      rw [r2] at i2
      have hstep : runCaptureList (s :: rest) st
          = runCaptureList rest (on_captured_device_sample st s) := rfl
      rw [hstep, List.length_cons]
      refine ⟨i1, ?_, Nat.le_trans n3 i3⟩
      rw [Nat.succ_mul]
      omega

/-- C1: Rate conversion drift bound.  For every fixed `device_rate ≥ 1` (a
`u32`) and pipeline rate (a `u32`), after `M` device samples are produced via
`next_output_sample` (render) or consumed via `on_captured_device_sample`
(capture), the cumulative number of pipeline-rate samples advanced `k`
satisfies `|k - M * pipeline_rate / device_rate| ≤ 1`, stated
denominator-free as `M*P ≤ k*D + D` and `k*D ≤ M*P + D`; moreover the exact
accumulator conservation `acc_final + k*D = acc_initial + M*P` holds, i.e.
the remainder persists across calls and is never reset mid-stream.  The
hypotheses `acc ≤ D` hold at construction and after `set_device_rates`
(both seed `acc = D`) and are preserved by every step. -/
theorem C1_rate_conversion_drift (st : EngineInner) (m : Nat) (samples : List Int)
    (hDr : 1 ≤ st.playback_device_rate) (hDr32 : st.playback_device_rate < 2 ^ 32)
    (hDc : 1 ≤ st.capture_device_rate) (hDc32 : st.capture_device_rate < 2 ^ 32)
    (hP32 : st.target_sample_rate < 2 ^ 32)
    (haccR : st.playback_step_accum ≤ st.playback_device_rate)
    (haccC : st.capture_step_accum ≤ st.capture_device_rate) :
    (m * st.target_sample_rate
        ≤ ((renderSteps m st).ghost_render_advanced - st.ghost_render_advanced)
            * st.playback_device_rate + st.playback_device_rate ∧
      ((renderSteps m st).ghost_render_advanced - st.ghost_render_advanced)
          * st.playback_device_rate
        ≤ m * st.target_sample_rate + st.playback_device_rate ∧
      (renderSteps m st).playback_step_accum
          + ((renderSteps m st).ghost_render_advanced - st.ghost_render_advanced)
            * st.playback_device_rate
        = st.playback_step_accum + m * st.target_sample_rate) ∧
    (samples.length * st.target_sample_rate
        ≤ ((runCaptureList samples st).ghost_capture_advanced - st.ghost_capture_advanced)
            * st.capture_device_rate + st.capture_device_rate ∧
      ((runCaptureList samples st).ghost_capture_advanced - st.ghost_capture_advanced)
          * st.capture_device_rate
        ≤ samples.length * st.target_sample_rate + st.capture_device_rate ∧
      (runCaptureList samples st).capture_step_accum
          + ((runCaptureList samples st).ghost_capture_advanced - st.ghost_capture_advanced)
            * st.capture_device_rate
        = st.capture_step_accum + samples.length * st.target_sample_rate) := by
  constructor
  · obtain ⟨s1, s2, s3⟩ := renderSteps_spec m st hDr hDr32 hP32 haccR
    have hk : (renderSteps m st).ghost_render_advanced
        = st.ghost_render_advanced
          + ((renderSteps m st).ghost_render_advanced - st.ghost_render_advanced) :=
      (Nat.add_sub_cancel' s3).symm
    rw [hk, Nat.add_mul] at s2
    have E2 : (renderSteps m st).playback_step_accum
        + ((renderSteps m st).ghost_render_advanced - st.ghost_render_advanced)
          * st.playback_device_rate
        = st.playback_step_accum + m * st.target_sample_rate := by omega
    exact ⟨by omega, by omega, E2⟩
  · obtain ⟨s1, s2, s3⟩ := runCaptureList_spec samples st hDc hDc32 hP32 haccC
    have hk : (runCaptureList samples st).ghost_capture_advanced
        = st.ghost_capture_advanced
          + ((runCaptureList samples st).ghost_capture_advanced
              - st.ghost_capture_advanced) :=
      (Nat.add_sub_cancel' s3).symm
    rw [hk, Nat.add_mul] at s2
    have E2 : (runCaptureList samples st).capture_step_accum
        + ((runCaptureList samples st).ghost_capture_advanced - st.ghost_capture_advanced)
          * st.capture_device_rate
        = st.capture_step_accum + samples.length * st.target_sample_rate := by omega
    exact ⟨by omega, by omega, E2⟩

/-- Witness for C1: all hypotheses hold at the default-configured engine, for
2 render slots and 3 captured device samples, and the bounds follow by
applying `C1_rate_conversion_drift` there. -/
theorem C1_rate_conversion_drift_witness :
    (1 ≤ engineDefault.playback_device_rate ∧
      engineDefault.playback_device_rate < 2 ^ 32 ∧
      1 ≤ engineDefault.capture_device_rate ∧
      engineDefault.capture_device_rate < 2 ^ 32 ∧
      engineDefault.target_sample_rate < 2 ^ 32 ∧
      engineDefault.playback_step_accum ≤ engineDefault.playback_device_rate ∧
      engineDefault.capture_step_accum ≤ engineDefault.capture_device_rate) ∧
    ((2 * engineDefault.target_sample_rate
        ≤ ((renderSteps 2 engineDefault).ghost_render_advanced
              - engineDefault.ghost_render_advanced)
            * engineDefault.playback_device_rate + engineDefault.playback_device_rate ∧
      ((renderSteps 2 engineDefault).ghost_render_advanced
            - engineDefault.ghost_render_advanced)
          * engineDefault.playback_device_rate
        ≤ 2 * engineDefault.target_sample_rate + engineDefault.playback_device_rate ∧
      (renderSteps 2 engineDefault).playback_step_accum
          + ((renderSteps 2 engineDefault).ghost_render_advanced
                - engineDefault.ghost_render_advanced)
            * engineDefault.playback_device_rate
        = engineDefault.playback_step_accum + 2 * engineDefault.target_sample_rate) ∧
    (([5, 6, 7] : List Int).length * engineDefault.target_sample_rate
        ≤ ((runCaptureList [5, 6, 7] engineDefault).ghost_capture_advanced
              - engineDefault.ghost_capture_advanced)
            * engineDefault.capture_device_rate + engineDefault.capture_device_rate ∧
      ((runCaptureList [5, 6, 7] engineDefault).ghost_capture_advanced
            - engineDefault.ghost_capture_advanced)
          * engineDefault.capture_device_rate
        ≤ ([5, 6, 7] : List Int).length * engineDefault.target_sample_rate
            + engineDefault.capture_device_rate ∧
      (runCaptureList [5, 6, 7] engineDefault).capture_step_accum
          + ((runCaptureList [5, 6, 7] engineDefault).ghost_capture_advanced
                - engineDefault.ghost_capture_advanced)
            * engineDefault.capture_device_rate
        = engineDefault.capture_step_accum
            + ([5, 6, 7] : List Int).length * engineDefault.target_sample_rate)) :=
  ⟨⟨by decide, by decide, by decide, by decide, by decide, by decide, by decide⟩,
    C1_rate_conversion_drift engineDefault 2 [5, 6, 7] (by decide) (by decide) (by decide)
      (by decide) (by decide) (by decide) (by decide)⟩

theorem process_capture_frames_fuel_delta (fuel : Nat) (st : EngineInner)
    (hfs : 1 ≤ st.frame_size) (hfuel : st.capture_accum.length < fuel) :
    ∃ delta,
      (process_capture_frames_fuel fuel st).ghost_capture_delivered =
          st.ghost_capture_delivered ++ delta ∧
      (∀ f ∈ delta, f.length = st.frame_size) ∧
      delta.flatten ++ (process_capture_frames_fuel fuel st).capture_accum
        = st.capture_accum ∧
      (process_capture_frames_fuel fuel st).capture_accum.length < st.frame_size := by
  induction fuel generalizing st with
  | zero => omega
  | succ n ih =>
      by_cases h : st.frame_size ≤ st.capture_accum.length
      · simp only [process_capture_frames_fuel, if_pos h]
        obtain ⟨rq, pq, stt, hh⟩ := handle_capture_frame_shape
          { st with capture_accum := st.capture_accum.drop st.frame_size }
          (st.capture_accum.take st.frame_size)
        have hh2 : handle_capture_frame
            { st with capture_accum := st.capture_accum.drop st.frame_size }
            (st.capture_accum.take st.frame_size)
            = { st with capture_accum := st.capture_accum.drop st.frame_size,
                        raw_frames := rq, processed_frames := pq, stats := stt,
                        ghost_capture_delivered := st.ghost_capture_delivered
                          ++ [st.capture_accum.take st.frame_size],
                        ghost_raw_pushed := st.ghost_raw_pushed
                          ++ [pcm16_to_bytes (st.capture_accum.take st.frame_size)],
                        ghost_processed_pushed := st.ghost_processed_pushed
                          ++ [pcm16_to_bytes (if st.enable_aec
                                then st.apm (st.capture_accum.take st.frame_size)
                                else st.capture_accum.take st.frame_size)] } := hh
        rw [hh2]
        obtain ⟨delta, h1, h2, h3, h4⟩ := ih
          { st with capture_accum := st.capture_accum.drop st.frame_size,
                    raw_frames := rq, processed_frames := pq, stats := stt,
                    ghost_capture_delivered := st.ghost_capture_delivered
                      ++ [st.capture_accum.take st.frame_size],
                    ghost_raw_pushed := st.ghost_raw_pushed
                      ++ [pcm16_to_bytes (st.capture_accum.take st.frame_size)],
                    ghost_processed_pushed := st.ghost_processed_pushed
                      ++ [pcm16_to_bytes (if st.enable_aec
                            then st.apm (st.capture_accum.take st.frame_size)
                            else st.capture_accum.take st.frame_size)] }
          hfs (by simp only [List.length_drop]; omega)
        refine ⟨st.capture_accum.take st.frame_size :: delta, ?_, ?_, ?_, h4⟩
        · rw [h1]
          simp
        · intro f hf
          rcases List.mem_cons.1 hf with hf | hf
          · subst hf
            exact List.length_take_of_le h
          · exact h2 f hf
        · simp only [List.flatten_cons, List.append_assoc]
          rw [h3]
          exact List.take_append_drop _ _
      · simp only [process_capture_frames_fuel, if_neg h]
        exact ⟨[], by simp, by simp, by simp, by omega⟩

/-- C4: Frame integrity.  For both directions (render and capture), each
processing pass slices off a sequence `delta` of frames, every one of exactly
`frame_size` samples; their concatenation followed by the retained remainder
is exactly the accumulator contents before the pass (FIFO order, no overlap,
no omission); and the accumulator retains at most `frame_size - 1` samples
after the pass.  The hypothesis `1 ≤ frame_size` always holds in the engine
(`frame_size = sample_rate / 100 ≥ 80` since the rate is floored at 8000). -/
theorem C4_frame_integrity (st : EngineInner) (hfs : 1 ≤ st.frame_size) :
    (∃ delta, (process_render_frames st).ghost_render_delivered
          = st.ghost_render_delivered ++ delta ∧
        (∀ f ∈ delta, f.length = st.frame_size) ∧
        delta.flatten ++ (process_render_frames st).render_accum = st.render_accum ∧
        (process_render_frames st).render_accum.length ≤ st.frame_size - 1) ∧
    (∃ delta, (process_capture_frames st).ghost_capture_delivered
          = st.ghost_capture_delivered ++ delta ∧
        (∀ f ∈ delta, f.length = st.frame_size) ∧
        delta.flatten ++ (process_capture_frames st).capture_accum = st.capture_accum ∧
        (process_capture_frames st).capture_accum.length ≤ st.frame_size - 1) := by
  simp only [process_render_frames, process_capture_frames]
  constructor
  · obtain ⟨delta, h1, h2, h3, h4⟩ := process_render_frames_fuel_delta
      (st.render_accum.length + 1) st hfs (Nat.lt_succ_self _)
    exact ⟨delta, h1, h2, h3, by omega⟩
  · obtain ⟨delta, h1, h2, h3, h4⟩ := process_capture_frames_fuel_delta
      (st.capture_accum.length + 1) st hfs (Nat.lt_succ_self _)
    exact ⟨delta, h1, h2, h3, by omega⟩

/-- Witness for C4: the frame-size hypothesis holds at a state holding a
250-sample render burst and a 481-sample capture burst (frame size 240), and
the integrity properties follow by applying `C4_frame_integrity` there. -/
theorem C4_frame_integrity_witness :
    1 ≤ frameTestState.frame_size ∧
    ((∃ delta, (process_render_frames frameTestState).ghost_render_delivered
          = frameTestState.ghost_render_delivered ++ delta ∧
        (∀ f ∈ delta, f.length = frameTestState.frame_size) ∧
        delta.flatten ++ (process_render_frames frameTestState).render_accum
          = frameTestState.render_accum ∧
        (process_render_frames frameTestState).render_accum.length
          ≤ frameTestState.frame_size - 1) ∧
    (∃ delta, (process_capture_frames frameTestState).ghost_capture_delivered
          = frameTestState.ghost_capture_delivered ++ delta ∧
        (∀ f ∈ delta, f.length = frameTestState.frame_size) ∧
        delta.flatten ++ (process_capture_frames frameTestState).capture_accum
          = frameTestState.capture_accum ∧
        (process_capture_frames frameTestState).capture_accum.length
          ≤ frameTestState.frame_size - 1)) :=
  ⟨by decide, C4_frame_integrity frameTestState (by decide)⟩

/-- C10 (implicit): every sample produced by a playback consume — including
the zero samples synthesized on underrun — is appended to the render sample
stream (the concatenation of delivered render reference frames and the
retained render accumulator), so underrun zeros are included in the render
reference frames handed to the external processor. -/
theorem C10_underruns_in_render_reference (st : EngineInner) :
    ((consume_playback_source_sample st).2.ghost_render_delivered.flatten
        ++ (consume_playback_source_sample st).2.render_accum
      = st.ghost_render_delivered.flatten ++ st.render_accum
          ++ [(consume_playback_source_sample st).1]) ∧
    (st.playback_queue = [] → (consume_playback_source_sample st).1 = 0) := by
  constructor
  · cases hq : st.playback_queue with
    | nil =>
        simp only [consume_playback_source_sample, hq, process_render_frames]
        rw [process_render_frames_fuel_stream]
        simp [List.append_assoc]
    | cons x xs =>
        simp only [consume_playback_source_sample, hq, process_render_frames]
        rw [process_render_frames_fuel_stream]
        simp [List.append_assoc]
  · intro hq
    simp [consume_playback_source_sample, hq]

/-- Witness for C10: the default-configured engine has an empty playback
queue, and the consumed sample there is the synthesized zero, by
`C10_underruns_in_render_reference`. -/
theorem C10_underruns_in_render_reference_witness :
    engineDefault.playback_queue = [] ∧
    (consume_playback_source_sample engineDefault).1 = 0 :=
  ⟨by decide, (C10_underruns_in_render_reference engineDefault).2 (by decide)⟩

theorem handle_capture_frame_sync (st : EngineInner) (frame : List Int)
    (h : CaptureSync st) : CaptureSync (handle_capture_frame st frame) := by
  obtain ⟨rq, pq, stt, hh⟩ := handle_capture_frame_shape st frame
  rw [hh]
  unfold CaptureSync at h ⊢
  obtain ⟨h1, h2⟩ := h
  constructor
  · show st.ghost_raw_pushed ++ [pcm16_to_bytes frame]
        = (st.ghost_capture_delivered ++ [frame]).map pcm16_to_bytes
    rw [h1]
    simp
  · show st.ghost_processed_pushed
          ++ [pcm16_to_bytes (if st.enable_aec then st.apm frame else frame)]
        = (st.ghost_capture_delivered ++ [frame]).map
            (fun f => pcm16_to_bytes (if st.enable_aec then st.apm f else f))
    rw [h2]
    simp

theorem process_capture_frames_fuel_sync (fuel : Nat) (st : EngineInner)
    (h : CaptureSync st) : CaptureSync (process_capture_frames_fuel fuel st) := by
  induction fuel generalizing st with
  | zero => exact h
  | succ n ih =>
      by_cases hc : st.frame_size ≤ st.capture_accum.length
      · simp only [process_capture_frames_fuel, if_pos hc]
        apply ih
        apply handle_capture_frame_sync
        exact h
      · simp only [process_capture_frames_fuel, if_neg hc]
        exact h

theorem applyOp_sync (st : EngineInner) (op : EngineOp) (h : CaptureSync st) :
    CaptureSync (applyOp st op) := by
  cases op with
  | play bytes =>
      by_cases he : bytes.length % 2 ≠ 0
      · have hop : applyOp st (.play bytes) = st := by
          simp only [applyOp, AudioEngine.play, if_pos he]
        rw [hop]
        exact h
      · have hop : applyOp st (.play bytes) = queue_playback_bytes st bytes := by
          simp only [applyOp, AudioEngine.play, if_neg he]
        rw [hop]
        exact h
  | renderSlot =>
      show CaptureSync (next_output_sample st).2
      obtain ⟨-, -, -, -, -, f6, f7, f8, f9, f10, -⟩ := next_output_fields st
      unfold CaptureSync at h ⊢
      obtain ⟨h1, h2⟩ := h
      constructor
      · rw [f7, f6]
        exact h1
      · rw [f8, f6, f9, f10]
        exact h2
  | captureSample s =>
      show CaptureSync (on_captured_device_sample st s)
      have hun : on_captured_device_sample st s =
          process_capture_frames
            (captureLoopFuel (satAdd64 st.capture_step_accum st.target_sample_rate + 1)
              { st with capture_step_accum :=
                  satAdd64 st.capture_step_accum st.target_sample_rate } s) := rfl
      rw [hun]
      simp only [process_capture_frames]
      apply process_capture_frames_fuel_sync
      obtain ⟨acc, ca, adv, hcl⟩ := captureLoopFuel_shape _ _ _
      rw [hcl]
      exact h
  | readProcessed n => exact h
  | readRaw n => exact h
  | setRates p c => exact h

theorem run_sync (ops : List EngineOp) (st : EngineInner) (h : CaptureSync st) :
    CaptureSync (run st ops) := by
  induction ops generalizing st with
  | nil => exact h
  | cons op rest ih => exact ih _ (applyOp_sync st op h)

/-- C5: 1:1 capture correspondence.  Over the engine's lifetime (any sequence
of data-plane operations from a freshly constructed engine), the count of
frames ever pushed to the processed queue equals the count ever pushed to the
raw queue; the raw pushes are exactly the encodings of the completed capture
frames in order, and the processed pushes are the encodings of those same
frames after the AEC step, in the same relative order — so every completed
capture frame is pushed to both queues, each push then subject to its queue's
own eviction policy. -/
theorem C5_capture_correspondence (apmF : List Int → List Int)
    (opts : Option AudioEngineOptions) (ops : List EngineOp) :
    (run (AudioEngine.new apmF opts) ops).ghost_raw_pushed.length
        = (run (AudioEngine.new apmF opts) ops).ghost_processed_pushed.length ∧
    (run (AudioEngine.new apmF opts) ops).ghost_raw_pushed
        = (run (AudioEngine.new apmF opts) ops).ghost_capture_delivered.map
            pcm16_to_bytes ∧
    (run (AudioEngine.new apmF opts) ops).ghost_processed_pushed
        = (run (AudioEngine.new apmF opts) ops).ghost_capture_delivered.map
            (fun f => pcm16_to_bytes
              (if (run (AudioEngine.new apmF opts) ops).enable_aec
                then (run (AudioEngine.new apmF opts) ops).apm f else f)) := by
  have h := run_sync ops (AudioEngine.new apmF opts)
    (by unfold CaptureSync; exact ⟨rfl, rfl⟩)
  unfold CaptureSync at h
  refine ⟨?_, h.1, h.2⟩
  rw [h.1, h.2]
  simp

theorem push_frame_with_cap_len (queue : List (List Nat)) (frame : List Nat) (cap d : Nat)
    (hcap : 1 ≤ cap) (hlen : queue.length ≤ cap) :
    (push_frame_with_cap queue frame cap d).1.length ≤ cap := by
  unfold push_frame_with_cap
  by_cases h : cap ≤ queue.length
  · rw [if_pos h]
    simp only [List.length_append, List.length_drop, List.length_cons, List.length_nil]
    omega
  · rw [if_neg h]
    simp only [List.length_append, List.length_cons, List.length_nil]
    omega

theorem pushAll_len (cap : Nat) (L : List (List Nat)) (q : List (List Nat)) (d : Nat)
    (hcap : 1 ≤ cap) (hlen : q.length ≤ cap) :
    (pushAll cap (q, d) L).1.length ≤ cap := by
  induction L generalizing q d with
  | nil => exact hlen
  | cons f rest ih =>
      have hstep : pushAll cap (q, d) (f :: rest)
          = pushAll cap (push_frame_with_cap q f cap d) rest := rfl
      rw [hstep]
      exact ih (push_frame_with_cap q f cap d).1 (push_frame_with_cap q f cap d).2
        (push_frame_with_cap_len q f cap d hcap hlen)

/-- C2 amended: for every capacity at least 1 and every queue within
capacity, a push leaves the length within capacity (hence over any sequence
of pushes from within-capacity state the length never exceeds the capacity);
a push at capacity evicts the oldest frame, appends the new one, and — while
the `u32` dropped counter is below its saturation point `2^32 - 1` —
increments the counter by exactly 1; a push below capacity appends and
leaves the counter unchanged.  (The original claim fails for capacity 0,
where the pushed frame always makes the length 1, and at counter saturation;
see the counterexample.) -/
theorem C2_queue_bound (q : List (List Nat)) (f : List Nat) (cap d : Nat)
    (L : List (List Nat)) (hcap : 1 ≤ cap) (hlen : q.length ≤ cap)
    (hd : d < 2 ^ 32 - 1) :
    (push_frame_with_cap q f cap d).1.length ≤ cap ∧
    (q.length = cap →
      (push_frame_with_cap q f cap d).1 = q.drop 1 ++ [f] ∧
      (push_frame_with_cap q f cap d).2 = d + 1) ∧
    (q.length < cap →
      (push_frame_with_cap q f cap d).1 = q ++ [f] ∧
      (push_frame_with_cap q f cap d).2 = d) ∧
    (pushAll cap (q, d) L).1.length ≤ cap := by
  refine ⟨push_frame_with_cap_len q f cap d hcap hlen, ?_, ?_,
    pushAll_len cap L q d hcap hlen⟩
  · intro he
    unfold push_frame_with_cap
    rw [if_pos (Nat.le_of_eq he.symm)]
    exact ⟨rfl, satAdd32_eq d 1 (by omega)⟩
  · intro hlt
    unfold push_frame_with_cap
    rw [if_neg (by omega)]
    exact ⟨rfl, rfl⟩

/-- Witness for C2: the hypotheses hold for capacity 2, a 2-frame queue and
counter 7, and the bound follows by applying `C2_queue_bound` there. -/
theorem C2_queue_bound_witness :
    ((1 : Nat) ≤ 2 ∧ ([[5], [6]] : List (List Nat)).length ≤ 2 ∧ (7 : Nat) < 2 ^ 32 - 1) ∧
    ((push_frame_with_cap [[5], [6]] [9] 2 7).1.length ≤ 2 ∧
    (([[5], [6]] : List (List Nat)).length = 2 →
      (push_frame_with_cap [[5], [6]] [9] 2 7).1 = ([[5], [6]] : List (List Nat)).drop 1 ++ [[9]] ∧
      (push_frame_with_cap [[5], [6]] [9] 2 7).2 = 7 + 1) ∧
    (([[5], [6]] : List (List Nat)).length < 2 →
      (push_frame_with_cap [[5], [6]] [9] 2 7).1 = [[5], [6]] ++ [[9]] ∧
      (push_frame_with_cap [[5], [6]] [9] 2 7).2 = 7) ∧
    (pushAll 2 ([[5], [6]], 7) [[1], [2], [3]]).1.length ≤ 2) :=
  ⟨⟨by decide, by decide, by decide⟩,
    C2_queue_bound [[5], [6]] [9] 2 7 [[1], [2], [3]] (by decide) (by decide) (by decide)⟩

/-- C2 counterexample: with capacity 0 a push still appends (length 1 exceeds
the capacity), so the bound in the claim fails; and at counter saturation
(`2^32 - 1`, reachable after that many drops) an at-capacity push increments
the dropped counter by 0, not exactly 1. -/
theorem C2_counterexample :
    (push_frame_with_cap [] [1] 0 0).1.length = 1 ∧
    ((push_frame_with_cap [] [1] 0 0).1.length ≤ 0 → False) ∧
    (push_frame_with_cap [[2]] [3] 1 (2 ^ 32 - 1)).2 = 2 ^ 32 - 1 ∧
    ((push_frame_with_cap [[2]] [3] 1 (2 ^ 32 - 1)).2 = (2 ^ 32 - 1) + 1 → False) := by
  decide

/-- C3 counterexample: in the spec's first worked-example scenario (pipeline
and device rate 16000, 320 bytes submitted, one 160-slot render callback) the
pending count does drop to 0, but one underrun IS recorded: the accumulator
is seeded to `device_rate`, so the first render slot consumes two samples and
the 160 slots consume 161 — the claim's "no underrun recorded" is false. -/
theorem C3_counterexample :
    (renderCollect 160 scenario1_engine).2.playback_queue.length = 0 ∧
    (renderCollect 160 scenario1_engine).2.stats.playback_underruns = 1 ∧
    ((renderCollect 160 scenario1_engine).2.stats.playback_underruns = 0 → False) := by
  decide

/-- C3 amended: with `pipeline_rate = device_rate = 16000` and the accumulator
seeded to `device_rate` at construction, a 160-slot render callback consumes
161 pipeline samples.  First scenario (160 samples of value 100 submitted):
`pending_playback_samples` drops to 0, exactly one underrun is recorded, and
the emitted device samples are 159 copies of 100 followed by one zero.
Second scenario (80 samples, values 1..80, submitted): the emitted samples
are the submitted values 2..80 (the first submitted sample is consumed and
immediately superseded within the first slot) followed by 81 zeros, and
`playback_underruns = 81`, not 80. -/
theorem C3_worked_example :
    (renderCollect 160 scenario1_engine).2.playback_queue.length = 0 ∧
    (renderCollect 160 scenario1_engine).2.stats.playback_underruns = 1 ∧
    (renderCollect 160 scenario1_engine).1 = List.replicate 159 100 ++ [0] ∧
    (renderCollect 160 scenario2_engine).1
        = (List.range 79).map (fun i => ((i : Int) + 2)) ++ List.replicate 81 0 ∧
    (renderCollect 160 scenario2_engine).2.stats.playback_underruns = 81 := by
  decide

/-- C6 counterexample: constructing with `sample_rate = 0` and
`max_capture_frames = 0` (non-positive rate and size parameters) does NOT
fail: an engine is returned, with the rate floored to 8000 and a queue
capacity of 0 — the source's constructor has no `ConfigError` path for
option values (its only fallible step is the external processor setup). -/
theorem C6_counterexample :
    (AudioEngine.new idProc
        (some ⟨some 0, none, none, none, some 0⟩)).target_sample_rate = 8000 ∧
    (AudioEngine.new idProc
        (some ⟨some 0, none, none, none, some 0⟩)).max_capture_frames = 0 ∧
    (AudioEngine.new idProc
        (some ⟨some 0, none, none, none, some 0⟩)).frame_size = 80 := by
  decide

/-- C6 amended: construction never rejects option values — an engine is
returned for every option set (the only failure path in the source is the
external processor setup): the sample rate defaults to 24000 and is floored
at 8000 (so a zero rate is accepted and becomes 8000), the queue capacity
defaults to 400 and a zero capacity is accepted, AEC defaults to enabled,
`frame_size` is one hundredth of the pipeline rate, and device rates and
step accumulators are seeded with the pipeline rate. -/
theorem C6_construction_defaults (apmF : List Int → List Int)
    (opts : Option AudioEngineOptions) :
    (AudioEngine.new apmF opts).target_sample_rate
        = max ((opts.bind fun o => o.sample_rate).getD DEFAULT_SAMPLE_RATE) 8000 ∧
    8000 ≤ (AudioEngine.new apmF opts).target_sample_rate ∧
    (AudioEngine.new apmF opts).frame_size
        = (AudioEngine.new apmF opts).target_sample_rate / 100 ∧
    (AudioEngine.new apmF opts).max_capture_frames
        = (opts.bind fun o => o.max_capture_frames).getD DEFAULT_MAX_CAPTURE_FRAMES ∧
    (AudioEngine.new apmF opts).enable_aec
        = (opts.bind fun o => o.enable_aec).getD true ∧
    (AudioEngine.new apmF opts).playback_device_rate
        = (AudioEngine.new apmF opts).target_sample_rate ∧
    (AudioEngine.new apmF opts).capture_device_rate
        = (AudioEngine.new apmF opts).target_sample_rate ∧
    (AudioEngine.new apmF opts).playback_step_accum
        = (AudioEngine.new apmF opts).target_sample_rate ∧
    (AudioEngine.new apmF opts).capture_step_accum
        = (AudioEngine.new apmF opts).target_sample_rate ∧
    (AudioEngine.new apmF opts).playback_queue = [] ∧
    (AudioEngine.new apmF opts).stats.playback_underruns = 0 :=
  ⟨rfl, Nat.le_max_right _ _, rfl, rfl, rfl, rfl, rfl, rfl, rfl, rfl, rfl⟩

theorem decode_pcm16_le_length : ∀ bytes : List Nat,
    (decode_pcm16_le bytes).length = bytes.length / 2
  | [] => rfl
  | [x] => by
      show ([] : List Int).length = [x].length / 2
      simp
  | lo :: hi :: rest => by
      have ih := decode_pcm16_le_length rest
      simp only [decode_pcm16_le, List.length_cons]
      omega

theorem decode_pcm16_le_getD : ∀ (bytes : List Nat) (i : Nat), 2 * i + 1 < bytes.length →
    (decode_pcm16_le bytes).getD i 0
      = i16_from_le_bytes (bytes.getD (2 * i) 0) (bytes.getD (2 * i + 1) 0)
  | [], i, h => by simp at h
  | [_], i, h => by
      simp only [List.length_cons, List.length_nil] at h
      omega
  | lo :: hi :: rest, 0, _ => by simp [decode_pcm16_le]
  | lo :: hi :: rest, i + 1, h => by
      have ih := decode_pcm16_le_getD rest i
        (by simp only [List.length_cons] at h; omega)
      have e1 : 2 * (i + 1) = 2 * i + 1 + 1 := by ring
      rw [e1]
      simp only [decode_pcm16_le, List.getD_cons_succ]
      exact ih

/-- C7: Playback submission.  `play` returns a validation error exactly when
the byte length is odd (the only other error in the source, lock poisoning,
is outside the data model); the source returns the error before touching any
engine state.  For an even-length buffer it replaces the engine state only
by appending the decoded samples to the playback queue: exactly `len / 2`
samples, each decoded little-endian signed 16-bit from the consecutive byte
pair, in order. -/
theorem C7_playback_submission (st : EngineInner) (bytes : List Nat) :
    (AudioEngine.play st bytes = none ↔ bytes.length % 2 = 1) ∧
    (bytes.length % 2 = 0 →
      AudioEngine.play st bytes
        = some { st with playback_queue := st.playback_queue ++ decode_pcm16_le bytes }) ∧
    (decode_pcm16_le bytes).length = bytes.length / 2 ∧
    (∀ i, 2 * i + 1 < bytes.length →
      (decode_pcm16_le bytes).getD i 0
        = i16_from_le_bytes (bytes.getD (2 * i) 0) (bytes.getD (2 * i + 1) 0)) := by
  refine ⟨⟨?_, ?_⟩, ?_, decode_pcm16_le_length bytes,
    fun i h => decode_pcm16_le_getD bytes i h⟩
  · intro h
    by_cases he : bytes.length % 2 ≠ 0
    · omega
    · simp only [AudioEngine.play, if_neg he] at h
      exact Option.noConfusion h
  · intro h
    simp only [AudioEngine.play]
    rw [if_pos (by omega)]
  · intro h
    simp only [AudioEngine.play]
    rw [if_neg (by omega)]
    rfl

/-- Witness for C7: an odd 3-byte buffer is rejected, and an even 4-byte
buffer is enqueued as its two decoded samples, by applying
`C7_playback_submission`. -/
theorem C7_playback_submission_witness :
    (([1, 2, 3] : List Nat).length % 2 = 1 ∧
      AudioEngine.play engineDefault [1, 2, 3] = none) ∧
    (([10, 0, 246, 255] : List Nat).length % 2 = 0 ∧
      AudioEngine.play engineDefault [10, 0, 246, 255]
        = some { engineDefault with
                 playback_queue := engineDefault.playback_queue
                   ++ decode_pcm16_le [10, 0, 246, 255] }) :=
  ⟨⟨by decide, (C7_playback_submission engineDefault [1, 2, 3]).1.mpr (by decide)⟩,
   ⟨by decide, (C7_playback_submission engineDefault [10, 0, 246, 255]).2.1 (by decide)⟩⟩

theorem consume_empty (st : EngineInner) (hq : st.playback_queue = []) :
    (consume_playback_source_sample st).1 = 0 ∧
    (consume_playback_source_sample st).2.playback_queue = [] ∧
    (consume_playback_source_sample st).2.stats.playback_underruns
        = satAdd32 st.stats.playback_underruns 1 ∧
    (consume_playback_source_sample st).2.last_playback_sample = 0 := by
  refine ⟨?_, ?_, ?_, ?_⟩
  · simp [consume_playback_source_sample, hq]
  · simp only [consume_playback_source_sample, hq, process_render_frames]
    obtain ⟨ra, g, h⟩ := process_render_frames_fuel_shape _ _
    rw [h]
  · simp only [consume_playback_source_sample, hq, process_render_frames]
    obtain ⟨ra, g, h⟩ := process_render_frames_fuel_shape _ _
    rw [h]
  · simp only [consume_playback_source_sample, hq, process_render_frames]
    obtain ⟨ra, g, h⟩ := process_render_frames_fuel_shape _ _
    rw [h]

theorem consume_nonempty (st : EngineInner) (x : Int) (xs : List Int)
    (hq : st.playback_queue = x :: xs) :
    (consume_playback_source_sample st).1 = x ∧
    (consume_playback_source_sample st).2.playback_queue = xs ∧
    (consume_playback_source_sample st).2.stats = st.stats ∧
    (consume_playback_source_sample st).2.last_playback_sample = x := by
  refine ⟨?_, ?_, ?_, ?_⟩
  · simp [consume_playback_source_sample, hq]
  · simp only [consume_playback_source_sample, hq, process_render_frames]
    obtain ⟨ra, g, h⟩ := process_render_frames_fuel_shape _ _
    rw [h]
  · simp only [consume_playback_source_sample, hq, process_render_frames]
    obtain ⟨ra, g, h⟩ := process_render_frames_fuel_shape _ _
    rw [h]
  · simp only [consume_playback_source_sample, hq, process_render_frames]
    obtain ⟨ra, g, h⟩ := process_render_frames_fuel_shape _ _
    rw [h]

theorem consumeCollect_empty (n : Nat) (st : EngineInner)
    (hq : st.playback_queue = [])
    (hu : st.stats.playback_underruns + n ≤ 2 ^ 32 - 1) :
    (consumeCollect n st).1 = List.replicate n 0 ∧
    (consumeCollect n st).2.playback_queue = [] ∧
    (consumeCollect n st).2.stats.playback_underruns
        = st.stats.playback_underruns + n ∧
    (1 ≤ n → (consumeCollect n st).2.last_playback_sample = 0) := by
  induction n generalizing st with
  | zero =>
      refine ⟨rfl, hq, ?_, ?_⟩
      · simp [consumeCollect]
      · omega
  | succ k ih =>
      obtain ⟨e1, e2, e3, e4⟩ := consume_empty st hq
      have hsat : satAdd32 st.stats.playback_underruns 1
          = st.stats.playback_underruns + 1 := satAdd32_eq _ _ (by omega)
      obtain ⟨i1, i2, i3, i4⟩ := ih (consume_playback_source_sample st).2 e2
        (by rw [e3, hsat]; omega)
      have hstep1 : (consumeCollect (k + 1) st).1
          = (consume_playback_source_sample st).1
              :: (consumeCollect k (consume_playback_source_sample st).2).1 := rfl
      have hstep2 : (consumeCollect (k + 1) st).2
          = (consumeCollect k (consume_playback_source_sample st).2).2 := rfl
      refine ⟨?_, ?_, ?_, ?_⟩
      · rw [hstep1, e1, i1]
        rfl
      · rw [hstep2]
        exact i2
      · rw [hstep2, i3, e3, hsat]
        omega
      · intro _
        cases k with
        | zero =>
            rw [hstep2]
            exact e4
        | succ j =>
            rw [hstep2]
            exact i4 (by omega)

/-- C8 amended: a consume-one pops and returns the oldest sample when the
buffer is non-empty, leaving the stats (hence the underrun counter)
unchanged, and caches the sample as the hold value; `n ≥ 1` consecutive
consumes from an empty buffer each yield a zero sample, leave the buffer
empty, set the hold value to zero, and — provided the `u32` counter does not
reach its saturation point `2^32 - 1` — increase the underrun counter by
exactly `n`.  (At saturation the counter stays at `2^32 - 1`; see the
counterexample.) -/
theorem C8_underrun_accounting (st : EngineInner) (x : Int) (xs : List Int) (n : Nat)
    (hu : st.stats.playback_underruns + n ≤ 2 ^ 32 - 1) :
    (st.playback_queue = x :: xs →
      (consume_playback_source_sample st).1 = x ∧
      (consume_playback_source_sample st).2.playback_queue = xs ∧
      (consume_playback_source_sample st).2.stats = st.stats ∧
      (consume_playback_source_sample st).2.last_playback_sample = x) ∧
    (st.playback_queue = [] → 1 ≤ n →
      (consumeCollect n st).1 = List.replicate n 0 ∧
      (consumeCollect n st).2.playback_queue = [] ∧
      (consumeCollect n st).2.stats.playback_underruns
          = st.stats.playback_underruns + n ∧
      (consumeCollect n st).2.last_playback_sample = 0) := by
  constructor
  · intro hq
    exact consume_nonempty st x xs hq
  · intro hq hn
    obtain ⟨i1, i2, i3, i4⟩ := consumeCollect_empty n st hq hu
    exact ⟨i1, i2, i3, i4 hn⟩

/-- Witness for C8: three consumes from the default engine's empty buffer
yield three zeros and raise the counter from 0 to 3, by applying
`C8_underrun_accounting`. -/
theorem C8_underrun_accounting_witness :
    (engineDefault.stats.playback_underruns + 3 ≤ 2 ^ 32 - 1) ∧
    engineDefault.playback_queue = [] ∧
    (consumeCollect 3 engineDefault).1 = List.replicate 3 0 ∧
    (consumeCollect 3 engineDefault).2.stats.playback_underruns
        = engineDefault.stats.playback_underruns + 3 :=
  ⟨by decide, by decide,
    ((C8_underrun_accounting engineDefault 0 [] 3 (by decide)).2 (by decide) (by decide)).1,
    ((C8_underrun_accounting engineDefault 0 [] 3
        (by decide)).2 (by decide) (by decide)).2.2.1⟩

/-- C8 counterexample: at the reachable state whose underrun counter has
saturated at `2^32 - 1`, a consume from the empty buffer still yields zero
but leaves the counter at `2^32 - 1` — it does not increment it by exactly 1
(`saturating_add` in the source). -/
theorem C8_counterexample :
    saturatedUnderrunState.playback_queue = [] ∧
    (consume_playback_source_sample saturatedUnderrunState).1 = 0 ∧
    (consume_playback_source_sample saturatedUnderrunState).2.stats.playback_underruns
        = 2 ^ 32 - 1 ∧
    ((consume_playback_source_sample saturatedUnderrunState).2.stats.playback_underruns
        = saturatedUnderrunState.stats.playback_underruns + 1 → False) := by
  decide

/-- C9: Echo canceller wrapper validation.  `EchoCanceller::new` returns a
validation error for every non-positive `frame_size`, `filter_length` or
`sample_rate` (checked before any library call, so no partial effect);
`playback` and `capture` return a validation error exactly when the buffer's
byte length differs from `frame_size * 2` (again checked before the library
call). -/
theorem C9_aec_validation (frame_size filter_length sample_rate : Int) (initOk : Bool)
    (ec : EchoCanceller) (frame : List Nat) (speexF : List Nat → List Int) :
    ((frame_size ≤ 0 ∨ filter_length ≤ 0 ∨ sample_rate ≤ 0) →
      EchoCanceller.new initOk frame_size filter_length sample_rate = none) ∧
    (EchoCanceller.playback ec frame = none ↔ ¬ frame.length = ec.frame_size * 2) ∧
    ((EchoCanceller.capture speexF ec frame).isSome
        ↔ frame.length = ec.frame_size * 2) := by
  refine ⟨?_, ?_, ?_⟩
  · intro h
    simp only [EchoCanceller.new, if_pos h]
  · by_cases hl : frame.length = ec.frame_size * 2 <;>
      simp [EchoCanceller.playback, hl]
  · by_cases hl : frame.length = ec.frame_size * 2 <;>
      simp [EchoCanceller.capture, hl]

/-- Witness for C9: a zero frame size is rejected by the constructor, and an
empty buffer is rejected by `playback` for a canceller of frame size 160, by
applying `C9_aec_validation`. -/
theorem C9_aec_validation_witness :
    ((0 : Int) ≤ 0 ∨ (1024 : Int) ≤ 0 ∨ (16000 : Int) ≤ 0) ∧
    EchoCanceller.new true 0 1024 16000 = none ∧
    EchoCanceller.playback ⟨160⟩ [] = none :=
  ⟨Or.inl (by decide),
    (C9_aec_validation 0 1024 16000 true ⟨160⟩ [] (fun _ => [])).1 (Or.inl (by decide)),
    (C9_aec_validation 0 1024 16000 true ⟨160⟩ [] (fun _ => [])).2.1.mpr (by decide)⟩

end AgentVoice
